import Mathlib

/-!
Shallow embedding of `psshlib/manager.py`: the `Manager` (bounded concurrent
task scheduler), the `IOMap` (poll-based event dispatcher) and the `Writer`
(queued file writer).

Tasks are opaque external objects driven through a fixed protocol; they are
represented here by natural-number identifiers.  Their externally observable
behaviour is supplied as functions of the number of completed poll cycles
since the task started (`beh` for `task.running()`, `elf` for
`task.elapsed()`).  Times are modelled as integers: the code only compares
and subtracts them.  Calls the Manager makes into tasks are recorded in an
event trace.
-/

/-- Observable calls the Manager makes on tasks, recorded as a trace:
`task.start`, `task.timedout`, `task.interrupted`, `task.cancel` and
`task.report(n)`. -/
inductive Event where
  | start : Nat → Event
  | timedout : Nat → Event
  | interruptedEv : Nat → Event
  | cancel : Nat → Event
  | report : Nat → Nat → Event
deriving Repr, DecidableEq

/-- `Manager` state: `limit` and `timeout` from `__init__`, the pending
`tasks` list (FIFO), the `running` list (task id paired with the number of
poll cycles completed since it started) and the `done` list, plus the event
trace of calls made into tasks. -/
structure MState where
  limit : Nat
  timeout : Int
  tasks : List Nat
  running : List (Nat × Nat)
  done : List Nat
  events : List Event
deriving Repr, DecidableEq

/-- `Manager.finished(task)`: append to `done`, then report with the new
length of `done` as the 1-based ordinal. -/
def finished (t : Nat) (s : MState) : MState :=
  let done := s.done ++ [t]
  { s with done := done, events := s.events ++ [Event.report t done.length] }

/-- The `while` loop of `Manager.start_tasks`: pop the earliest pending task
and append it to `running` while pending is non-empty and `running` is below
`limit`.  `task.start(iomap, writer)` is recorded as a `start` event (the
task registers its own descriptors; the Manager's collections are not
touched by it). -/
def startTasksAux (limit : Nat) :
    List Nat → List (Nat × Nat) → List Event →
      List Nat × List (Nat × Nat) × List Event
  | [], running, evs => ([], running, evs)
  | t :: rest, running, evs =>
    if running.length < limit then
      startTasksAux limit rest (running ++ [(t, 0)]) (evs ++ [Event.start t])
    else (t :: rest, running, evs)

/-- `Manager.start_tasks`. -/
def startTasks (s : MState) : MState :=
  let r := startTasksAux s.limit s.tasks s.running s.events
  { s with tasks := r.1, running := r.2.1, events := r.2.2 }

/-- `IOMap.poll` as seen from the Manager's run loop: each running task's
poll-cycle counter advances.  Handlers receive `(fd, event, iomap)` only, so
dispatch never touches the Manager's task collections (the IOMap itself is
modelled separately below).  The wait argument is ignored by the state. -/
def pollStep (_w : Int) (s : MState) : MState :=
  { s with running := s.running.map (fun t => (t.1, t.2 + 1)) }

/-- The `for` loop of `Manager.check_tasks`: accumulate `still_running`,
call `finished` on every task whose `running()` is false. -/
def checkTasksAux (beh : Nat → Nat → Bool) :
    List (Nat × Nat) → List (Nat × Nat) → MState →
      List (Nat × Nat) × MState
  | [], still, s => (still, s)
  | t :: rest, still, s =>
    if beh t.1 t.2 then checkTasksAux beh rest (still ++ [t]) s
    else checkTasksAux beh rest still (finished t.1 s)

/-- `Manager.check_tasks`: rebuild `running` from the survivors. -/
def checkTasks (beh : Nat → Nat → Bool) (s : MState) : MState :=
  let r := checkTasksAux beh s.running [] s
  { r.2 with running := r.1 }

/-- The `min_timeleft` update of `Manager.check_timeout`:
`if min_timeleft is None or timeleft < min_timeleft: min_timeleft =
timeleft`. -/
def minUpdate (timeleft : Int) : Option Int → Option Int
  | none => some timeleft
  | some m => if timeleft < m then some timeleft else some m

/-- The `for` loop of `Manager.check_timeout`: for each running task compute
`timeleft = timeout - task.elapsed()`; if `timeleft <= 0` call
`task.timedout()` and continue, otherwise fold the running minimum. -/
def checkTimeoutAux (elf : Nat → Nat → Int) (timeout : Int) :
    List (Nat × Nat) → Option Int → MState → Option Int × MState
  | [], minTL, s => (minTL, s)
  | t :: rest, minTL, s =>
    let timeleft := timeout - elf t.1 t.2
    if timeleft ≤ 0 then
      checkTimeoutAux elf timeout rest minTL
        { s with events := s.events ++ [Event.timedout t.1] }
    else
      checkTimeoutAux elf timeout rest (minUpdate timeleft minTL) s

/-- `Manager.check_timeout`: returns `None` when `timeout <= 0`, otherwise
`max(0, min_timeleft)`.  `min_timeleft` can still be Python's `None` here
(no positive time left was found); under Python 2 comparison `None < 0`, so
`max(0, None)` evaluates to `0`. -/
def checkTimeout (elf : Nat → Nat → Int) (s : MState) : MState × Option Int :=
  if s.timeout ≤ 0 then (s, none)
  else
    let r := checkTimeoutAux elf s.timeout s.running none s
    (r.2, some (match r.1 with
                | none => 0
                | some m => max 0 m))

/-- First loop of `Manager.interrupted`: `task.interrupted()` then
`finished(task)` for every running task, in order. -/
def interruptAux : List Nat → MState → MState
  | [], s => s
  | t :: rest, s =>
    interruptAux rest
      (finished t { s with events := s.events ++ [Event.interruptedEv t] })

/-- Second loop of `Manager.interrupted`: `task.cancel()` then
`finished(task)` for every still-pending task, in order. -/
def cancelAux : List Nat → MState → MState
  | [], s => s
  | t :: rest, s =>
    cancelAux rest
      (finished t { s with events := s.events ++ [Event.cancel t] })

/-- `Manager.interrupted`: interrupt-and-finish every running task, then
cancel-and-finish every pending task.  Neither list is cleared. -/
def interrupted (s : MState) : MState :=
  cancelAux s.tasks (interruptAux (s.running.map Prod.fst) s)

/-- The in-loop wait clamping of `Manager.run`:
`if wait == None or wait < 1: wait = 1`. -/
def clampWait : Option Int → Int
  | none => 1
  | some w => if w < 1 then 1 else w

/-- The `while self.running or self.tasks` loop of `Manager.run`, with fuel.
Each iteration clamps the wait, polls, checks tasks, then recomputes the
wait from `check_timeout`.  Returns the state, the pending wait and whether
the loop exited normally within the fuel.  Note the source calls
`start_tasks` only once, before this loop. -/
def runLoop (beh : Nat → Nat → Bool) (elf : Nat → Nat → Int) :
    Nat → MState → Option Int → MState × Option Int × Bool
  | 0, s, w => (s, w, false)
  | Nat.succ fuel, s, w =>
    if s.running = [] ∧ s.tasks = [] then (s, w, true)
    else
      let w1 := clampWait w
      let s1 := pollStep w1 s
      let s2 := checkTasks beh s1
      let r := checkTimeout elf s2
      runLoop beh elf fuel r.1 r.2

/-- `Manager.run` without a user abort: one `start_tasks` call, then the
loop with `wait = None`.  (Writer creation and shutdown do not touch the
task collections and are modelled with the Writer below.) -/
def runManager (beh : Nat → Nat → Bool) (elf : Nat → Nat → Int)
    (fuel : Nat) (s : MState) : MState × Option Int × Bool :=
  runLoop beh elf fuel (startTasks s) none

/-- `Manager.run` when a `KeyboardInterrupt` arrives during the blocking
poll of iteration `k + 1`: the first `k` iterations complete, then
`Manager.interrupted` runs and `run` returns (the exception is caught).  If
the loop already exited normally within `k` iterations no interrupt
happens. -/
def runInterrupted (beh : Nat → Nat → Bool) (elf : Nat → Nat → Int)
    (k : Nat) (s : MState) : MState :=
  let r := runLoop beh elf k (startTasks s) none
  if r.2.2 then r.1 else interrupted r.1

/-- The `(task id, ordinal)` pairs of the `report` calls in a trace. -/
def reports (es : List Event) : List (Nat × Nat) :=
  es.filterMap (fun e =>
    match e with
    | Event.report t n => some (t, n)
    | _ => none)

/-- Whether an event is a `timedout` call. -/
def isTimedoutEv : Event → Bool
  | Event.timedout _ => true
  | _ => false

/-- `select.POLLIN` on Linux. -/
def POLLIN : Nat := 1

/-- `select.POLLOUT` on Linux. -/
def POLLOUT : Nat := 4

/-- `IOMap` state: the `fd -> handler` dict (handlers are opaque, identified
by number) and the poller's `fd -> eventmask` interest registrations. -/
structure IOMapState where
  map : List (Nat × Nat)
  poller : List (Nat × Nat)
deriving Repr, DecidableEq

/-- Python dict assignment `m[k] = v`: overwrite in place if the key is
present, otherwise append. -/
def dictInsert (m : List (Nat × Nat)) (k v : Nat) : List (Nat × Nat) :=
  if (m.lookup k).isSome then
    m.map (fun p => if p.1 = k then (k, v) else p)
  else m ++ [(k, v)]

/-- `IOMap.register(fd, handler, read, write)`: `self.map[fd] = handler`
happens first; then the eventmask is computed and, if it is zero, a
`ValueError` is raised — with the map assignment already done.  Otherwise
the poller registration is added.  The returned pair is the object state
after the call together with the raised error, if any. -/
def register (fd handler : Nat) (rd wr : Bool) (s : IOMapState) :
    IOMapState × Option String :=
  let s1 := { s with map := dictInsert s.map fd handler }
  let eventmask := (if rd then POLLIN else 0) + (if wr then POLLOUT else 0)
  if eventmask = 0 then
    (s1, some "Register must be called with read or write.")
  else
    ({ s1 with poller := dictInsert s1.poller fd eventmask }, none)

/-- The dispatch loop of `IOMap.poll`: iterate over the pre-fetched ready
list returned by `self.poller.poll(timeout)`; for each `(fd, event)` look
the handler up in the current map (a missing key raises `KeyError`) and
invoke it.  A handler is opaque code receiving `(fd, event, self)` and may
mutate the IOMap arbitrarily; `env` gives each handler id its effect on the
IOMap state. -/
def pollDispatch (env : Nat → Nat → Nat → IOMapState → IOMapState) :
    List (Nat × Nat) → IOMapState → IOMapState × Option String
  | [], s => (s, none)
  | (fd, ev) :: rest, s =>
    match s.map.lookup fd with
    | none => (s, some "KeyError")
    | some h => pollDispatch env rest (env h fd ev s)

/-- A queue entry consumed by `Writer.run`: `(file, data)`, `(file, EOF)`
or `(ABORT, None)`.  Destinations (files) are identified by number. -/
inductive WEntry where
  | write : Nat → String → WEntry
  | close : Nat → WEntry
  | abort : WEntry
deriving Repr, DecidableEq

/-- Writer-side file state: which destinations have been closed, and the
writes performed so far, in order. -/
structure WState where
  closed : List Nat
  out : List (Nat × String)
deriving Repr, DecidableEq

/-- How `Writer.run` terminates: queue drained (still blocked on `get`),
`ABORT` dequeued, or an uncaught exception that kills the thread. -/
inductive WOutcome where
  | drained : WOutcome
  | aborted : WOutcome
  | errored : String → WOutcome
deriving Repr, DecidableEq

/-- `Writer.run` over a snapshot of the queue, in FIFO order: return on
`ABORT`; `file.close()` on an `EOF` payload (idempotent in Python 2);
otherwise `print >>file, data,` — which raises `ValueError` if the file is
already closed, and the loop has no exception handler, so the uncaught
error ends the thread with every later entry left unprocessed. -/
def writerRun : List WEntry → WState → WState × WOutcome
  | [], st => (st, WOutcome.drained)
  | WEntry.abort :: _, st => (st, WOutcome.aborted)
  | WEntry.close f :: rest, st =>
    writerRun rest { st with closed := st.closed ++ [f] }
  | WEntry.write f d :: rest, st =>
    if f ∈ st.closed then
      (st, WOutcome.errored "ValueError: I/O operation on closed file")
    else writerRun rest { st with out := st.out ++ [(f, d)] }

/-- The reporting invariant: the `report` calls made so far are exactly the
done tasks, in completion order, with ordinals `1, 2, ...`. -/
def ordInv (s : MState) : Prop :=
  reports s.events = s.done.zip (List.range' 1 s.done.length)

/-- The conservation invariant: done, running and pending tasks together are
exactly the originally added tasks. -/
def goodPerm (ts0 : List Nat) (s : MState) : Prop :=
  (s.done ++ (s.running.map Prod.fst ++ s.tasks)).Perm ts0

/-- A task behaviour whose `running()` is false at the first check: the
task finishes immediately once started. -/
def behNever : Nat → Nat → Bool := fun _ _ => false

/-- A task behaviour whose `running()` stays true: the task never finishes
on its own. -/
def behAlways : Nat → Nat → Bool := fun _ _ => true

/-- A trivial `elapsed()` behaviour. -/
def elfZero : Nat → Nat → Int := fun _ _ => 0

/-- A fresh Manager with limit 2 and two added tasks, as built by
`Manager(2, 0)` plus two `add_task` calls. -/
def mgrTwo : MState :=
  { limit := 2, timeout := 0, tasks := [5, 7], running := [], done := [],
    events := [] }

/-- A fresh Manager with limit 2 and three added tasks 0, 1, 2. -/
def mgrThree : MState :=
  { limit := 2, timeout := 0, tasks := [0, 1, 2], running := [], done := [],
    events := [] }

/-- The state `mgrThree` reaches after `start_tasks` and one loop
iteration: tasks 0 and 1 started and finished, task 2 still pending. -/
def mgrThreeStuck : MState :=
  { limit := 2, timeout := 0, tasks := [2], running := [], done := [0, 1],
    events := ([Event.start 0, Event.start 1, Event.report 0 1,
      Event.report 1 2]) }

/-- A fresh Manager with limit 1 and two added tasks 10 and 20: with
`behAlways`, task 10 runs forever and task 20 stays pending. -/
def mgrAbort : MState :=
  { limit := 1, timeout := 0, tasks := [10, 20], running := [], done := [],
    events := [] }

/-- A Manager mid-run: one finished task, one running task, one pending
task. -/
def mgrMid : MState :=
  { limit := 1, timeout := 0, tasks := [20], running := [(10, 1)],
    done := [7], events := [] }

/-- A Manager with a positive timeout ceiling and no running tasks. -/
def mgrIdle : MState :=
  { limit := 1, timeout := 5, tasks := [], running := [], done := [],
    events := [] }

/-! ### Helper lemmas: `finished`, `reports` and the ordinal invariant -/

theorem reports_append (es fs : List Event) :
    reports (es ++ fs) = reports es ++ reports fs :=
  List.filterMap_append es fs _

theorem finished_tasks (t : Nat) (s : MState) :
    (finished t s).tasks = s.tasks := rfl

theorem finished_running (t : Nat) (s : MState) :
    (finished t s).running = s.running := rfl

theorem finished_limit (t : Nat) (s : MState) :
    (finished t s).limit = s.limit := rfl

theorem finished_timeout (t : Nat) (s : MState) :
    (finished t s).timeout = s.timeout := rfl

theorem finished_done (t : Nat) (s : MState) :
    (finished t s).done = s.done ++ [t] := rfl

theorem finished_events (t : Nat) (s : MState) :
    (finished t s).events = s.events ++ [Event.report t (s.done.length + 1)] := by
  simp [finished]

theorem reports_finished (t : Nat) (s : MState) :
    reports (finished t s).events = reports s.events ++ [(t, s.done.length + 1)] := by
  rw [finished_events, reports_append]
  simp [reports]

theorem ordInv_finished (t : Nat) (s : MState) (h : ordInv s) :
    ordInv (finished t s) := by
  unfold ordInv at h ⊢
  rw [reports_finished, h, finished_done]
  have hlen : s.done.length = (List.range' 1 s.done.length).length := by
    simp
  rw [List.length_append, List.length_singleton, List.range'_1_concat,
    List.zip_append hlen]
  simp [Nat.add_comm]

/-! ### Helper lemmas: `startTasks` -/

theorem startTasksAux_ids (limit : Nat) :
    ∀ (l : List Nat) (running : List (Nat × Nat)) (evs : List Event),
      (startTasksAux limit l running evs).2.1.map Prod.fst
          ++ (startTasksAux limit l running evs).1
        = running.map Prod.fst ++ l
  | [], running, evs => by simp [startTasksAux]
  | t :: rest, running, evs => by
    by_cases h : running.length < limit
    · rw [startTasksAux, if_pos h, startTasksAux_ids limit rest]
      simp
    · rw [startTasksAux, if_neg h]

theorem startTasksAux_events (limit : Nat) :
    ∀ (l : List Nat) (running : List (Nat × Nat)) (evs : List Event),
      ∃ ids : List Nat,
        (startTasksAux limit l running evs).2.2 = evs ++ ids.map Event.start
  | [], running, evs => ⟨[], by simp [startTasksAux]⟩
  | t :: rest, running, evs => by
    by_cases h : running.length < limit
    · obtain ⟨ids, hids⟩ :=
        startTasksAux_events limit rest (running ++ [(t, 0)])
          (evs ++ [Event.start t])
      exact ⟨t :: ids, by rw [startTasksAux, if_pos h, hids]; simp⟩
    · exact ⟨[], by rw [startTasksAux, if_neg h]; simp⟩

theorem reports_starts (ids : List Nat) :
    reports (ids.map Event.start) = [] := by
  induction ids with
  | nil => rfl
  | cons t rest ih => simp [reports]

theorem isTimedoutEv_starts (ids : List Nat) :
    ∀ e ∈ ids.map Event.start, isTimedoutEv e = false := by
  intro e he
  obtain ⟨i, _, rfl⟩ := List.mem_map.1 he
  rfl

theorem startTasksAux_len (limit : Nat) :
    ∀ (l : List Nat) (running : List (Nat × Nat)) (evs : List Event),
      running.length ≤ limit →
        (startTasksAux limit l running evs).2.1.length ≤ limit
  | [], running, evs, h => by simpa [startTasksAux] using h
  | t :: rest, running, evs, h => by
    by_cases hlt : running.length < limit
    · rw [startTasksAux, if_pos hlt]
      exact startTasksAux_len limit rest _ _ (by simpa using hlt)
    · rw [startTasksAux, if_neg hlt]
      exact h

theorem startTasks_done (s : MState) : (startTasks s).done = s.done := rfl

theorem startTasks_limit (s : MState) : (startTasks s).limit = s.limit := rfl

theorem startTasks_timeout (s : MState) :
    (startTasks s).timeout = s.timeout := rfl

theorem startTasks_ids (s : MState) :
    (startTasks s).running.map Prod.fst ++ (startTasks s).tasks
      = s.running.map Prod.fst ++ s.tasks :=
  startTasksAux_ids s.limit s.tasks s.running s.events

theorem startTasks_reports (s : MState) :
    reports (startTasks s).events = reports s.events := by
  obtain ⟨ids, hids⟩ := startTasksAux_events s.limit s.tasks s.running s.events
  show reports (startTasksAux s.limit s.tasks s.running s.events).2.2
      = reports s.events
  rw [hids, reports_append, reports_starts, List.append_nil]

theorem startTasks_noTimedout (s : MState)
    (h : ∀ e ∈ s.events, isTimedoutEv e = false) :
    ∀ e ∈ (startTasks s).events, isTimedoutEv e = false := by
  obtain ⟨ids, hids⟩ := startTasksAux_events s.limit s.tasks s.running s.events
  intro e he
  have he' : e ∈ (startTasksAux s.limit s.tasks s.running s.events).2.2 := he
  rw [hids] at he'
  rcases List.mem_append.1 he' with h1 | h1
  · exact h e h1
  · exact isTimedoutEv_starts ids e h1

theorem startTasks_len (s : MState) (h : s.running.length ≤ s.limit) :
    (startTasks s).running.length ≤ s.limit :=
  startTasksAux_len s.limit s.tasks s.running s.events h

theorem startTasks_goodPerm (ts0 : List Nat) (s : MState)
    (h : goodPerm ts0 s) : goodPerm ts0 (startTasks s) := by
  unfold goodPerm at h ⊢
  rw [startTasks_done, startTasks_ids]
  exact h

theorem startTasks_ordInv (s : MState) (h : ordInv s) :
    ordInv (startTasks s) := by
  unfold ordInv at h ⊢
  rw [startTasks_reports, startTasks_done]
  exact h

/-! ### Helper lemmas: `pollStep` -/

theorem pollStep_ids (w : Int) (s : MState) :
    (pollStep w s).running.map Prod.fst = s.running.map Prod.fst := by
  simp [pollStep]

theorem pollStep_tasks (w : Int) (s : MState) :
    (pollStep w s).tasks = s.tasks := rfl

theorem pollStep_done (w : Int) (s : MState) :
    (pollStep w s).done = s.done := rfl

theorem pollStep_events (w : Int) (s : MState) :
    (pollStep w s).events = s.events := rfl

theorem pollStep_limit (w : Int) (s : MState) :
    (pollStep w s).limit = s.limit := rfl

theorem pollStep_timeout (w : Int) (s : MState) :
    (pollStep w s).timeout = s.timeout := rfl

theorem pollStep_len (w : Int) (s : MState) :
    (pollStep w s).running.length = s.running.length := by
  simp [pollStep]

theorem pollStep_goodPerm (ts0 : List Nat) (w : Int) (s : MState)
    (h : goodPerm ts0 s) : goodPerm ts0 (pollStep w s) := by
  unfold goodPerm at h ⊢
  rw [pollStep_done, pollStep_ids, pollStep_tasks]
  exact h

theorem pollStep_ordInv (w : Int) (s : MState) (h : ordInv s) :
    ordInv (pollStep w s) := h

/-! ### Helper lemmas: `checkTasks` -/

theorem checkTasksAux_still (beh : Nat → Nat → Bool) :
    ∀ (l still : List (Nat × Nat)) (s : MState),
      (checkTasksAux beh l still s).1
        = still ++ l.filter (fun t => beh t.1 t.2)
  | [], still, s => by simp [checkTasksAux]
  | t :: rest, still, s => by
    by_cases h : beh t.1 t.2
    · rw [checkTasksAux, if_pos h, checkTasksAux_still beh rest]
      simp [h]
    · rw [checkTasksAux, if_neg h, checkTasksAux_still beh rest]
      simp [h]

theorem checkTasksAux_done (beh : Nat → Nat → Bool) :
    ∀ (l still : List (Nat × Nat)) (s : MState),
      (checkTasksAux beh l still s).2.done
        = s.done ++ (l.filter (fun t => !beh t.1 t.2)).map Prod.fst
  | [], still, s => by simp [checkTasksAux]
  | t :: rest, still, s => by
    by_cases h : beh t.1 t.2
    · rw [checkTasksAux, if_pos h, checkTasksAux_done beh rest]
      simp [h]
    · rw [checkTasksAux, if_neg h, checkTasksAux_done beh rest, finished_done]
      simp [h]

theorem checkTasksAux_tasks (beh : Nat → Nat → Bool) :
    ∀ (l still : List (Nat × Nat)) (s : MState),
      (checkTasksAux beh l still s).2.tasks = s.tasks
  | [], still, s => rfl
  | t :: rest, still, s => by
    by_cases h : beh t.1 t.2
    · rw [checkTasksAux, if_pos h, checkTasksAux_tasks beh rest]
    · rw [checkTasksAux, if_neg h, checkTasksAux_tasks beh rest, finished_tasks]

theorem checkTasksAux_limit (beh : Nat → Nat → Bool) :
    ∀ (l still : List (Nat × Nat)) (s : MState),
      (checkTasksAux beh l still s).2.limit = s.limit
  | [], still, s => rfl
  | t :: rest, still, s => by
    by_cases h : beh t.1 t.2
    · rw [checkTasksAux, if_pos h, checkTasksAux_limit beh rest]
    · rw [checkTasksAux, if_neg h, checkTasksAux_limit beh rest, finished_limit]

theorem checkTasksAux_timeout (beh : Nat → Nat → Bool) :
    ∀ (l still : List (Nat × Nat)) (s : MState),
      (checkTasksAux beh l still s).2.timeout = s.timeout
  | [], still, s => rfl
  | t :: rest, still, s => by
    by_cases h : beh t.1 t.2
    · rw [checkTasksAux, if_pos h, checkTasksAux_timeout beh rest]
    · rw [checkTasksAux, if_neg h, checkTasksAux_timeout beh rest,
        finished_timeout]

theorem checkTasksAux_ordInv (beh : Nat → Nat → Bool) :
    ∀ (l still : List (Nat × Nat)) (s : MState),
      ordInv s → ordInv (checkTasksAux beh l still s).2
  | [], still, s, h => h
  | t :: rest, still, s, h => by
    by_cases hb : beh t.1 t.2
    · rw [checkTasksAux, if_pos hb]
      exact checkTasksAux_ordInv beh rest _ s h
    · rw [checkTasksAux, if_neg hb]
      exact checkTasksAux_ordInv beh rest _ _ (ordInv_finished t.1 s h)

theorem checkTasksAux_noTimedout (beh : Nat → Nat → Bool) :
    ∀ (l still : List (Nat × Nat)) (s : MState),
      (∀ e ∈ s.events, isTimedoutEv e = false) →
        ∀ e ∈ (checkTasksAux beh l still s).2.events, isTimedoutEv e = false
  | [], still, s, h => h
  | t :: rest, still, s, h => by
    by_cases hb : beh t.1 t.2
    · rw [checkTasksAux, if_pos hb]
      exact checkTasksAux_noTimedout beh rest _ s h
    · rw [checkTasksAux, if_neg hb]
      refine checkTasksAux_noTimedout beh rest _ _ ?_
      intro e he
      rw [finished_events] at he
      rcases List.mem_append.1 he with h1 | h1
      · exact h e h1
      · rw [List.mem_singleton.1 h1]; rfl

theorem checkTasks_running (beh : Nat → Nat → Bool) (s : MState) :
    (checkTasks beh s).running = s.running.filter (fun t => beh t.1 t.2) := by
  show (checkTasksAux beh s.running [] s).1 = _
  rw [checkTasksAux_still]
  simp

theorem checkTasks_done (beh : Nat → Nat → Bool) (s : MState) :
    (checkTasks beh s).done
      = s.done ++ (s.running.filter (fun t => !beh t.1 t.2)).map Prod.fst :=
  checkTasksAux_done beh s.running [] s

theorem checkTasks_tasks (beh : Nat → Nat → Bool) (s : MState) :
    (checkTasks beh s).tasks = s.tasks :=
  checkTasksAux_tasks beh s.running [] s

theorem checkTasks_limit (beh : Nat → Nat → Bool) (s : MState) :
    (checkTasks beh s).limit = s.limit :=
  checkTasksAux_limit beh s.running [] s

theorem checkTasks_timeout (beh : Nat → Nat → Bool) (s : MState) :
    (checkTasks beh s).timeout = s.timeout :=
  checkTasksAux_timeout beh s.running [] s

theorem checkTasks_ordInv (beh : Nat → Nat → Bool) (s : MState)
    (h : ordInv s) : ordInv (checkTasks beh s) := by
  have := checkTasksAux_ordInv beh s.running [] s h
  unfold ordInv at this ⊢
  exact this

theorem checkTasks_noTimedout (beh : Nat → Nat → Bool) (s : MState)
    (h : ∀ e ∈ s.events, isTimedoutEv e = false) :
    ∀ e ∈ (checkTasks beh s).events, isTimedoutEv e = false :=
  checkTasksAux_noTimedout beh s.running [] s h

theorem checkTasks_len (beh : Nat → Nat → Bool) (s : MState) :
    (checkTasks beh s).running.length ≤ s.running.length := by
  rw [checkTasks_running]
  exact List.length_filter_le _ _

theorem checkTasks_goodPerm (ts0 : List Nat) (beh : Nat → Nat → Bool)
    (s : MState) (h : goodPerm ts0 s) : goodPerm ts0 (checkTasks beh s) := by
  unfold goodPerm at h ⊢
  rw [checkTasks_done, checkTasks_running, checkTasks_tasks]
  refine List.Perm.trans ?_ h
  have hsplit :
      ((s.running.filter (fun t => beh t.1 t.2)).map Prod.fst
          ++ (s.running.filter (fun t => !beh t.1 t.2)).map Prod.fst).Perm
        (s.running.map Prod.fst) := by
    have := (List.filter_append_perm (fun t => beh t.1 t.2) s.running).map
      Prod.fst
    rw [List.map_append] at this
    exact this
  have h1 : ((s.running.filter (fun t => !beh t.1 t.2)).map Prod.fst
      ++ (s.running.filter (fun t => beh t.1 t.2)).map Prod.fst).Perm
      (s.running.map Prod.fst) :=
    List.Perm.trans List.perm_append_comm hsplit
  have h2 : (s.done ++ (s.running.filter (fun t => !beh t.1 t.2)).map Prod.fst)
        ++ ((s.running.filter (fun t => beh t.1 t.2)).map Prod.fst ++ s.tasks)
      = s.done ++ (((s.running.filter (fun t => !beh t.1 t.2)).map Prod.fst
        ++ (s.running.filter (fun t => beh t.1 t.2)).map Prod.fst) ++ s.tasks) := by
    simp only [List.append_assoc]
  rw [h2]
  exact List.Perm.append_left s.done (List.Perm.append_right s.tasks h1)

/-! ### Helper lemmas: `checkTimeout` -/

theorem checkTimeout_nonpos (elf : Nat → Nat → Int) (s : MState)
    (h : s.timeout ≤ 0) : checkTimeout elf s = (s, none) := by
  simp [checkTimeout, h]

theorem checkTimeoutAux_events (elf : Nat → Nat → Int) (timeout : Int) :
    ∀ (l : List (Nat × Nat)) (acc : Option Int) (s : MState),
      (checkTimeoutAux elf timeout l acc s).2.events
        = s.events ++ (l.filter (fun t => timeout - elf t.1 t.2 ≤ 0)).map
            (fun t => Event.timedout t.1)
  | [], acc, s => by simp [checkTimeoutAux]
  | t :: rest, acc, s => by
    by_cases h : timeout - elf t.1 t.2 ≤ 0
    · have h' : timeout ≤ elf t.1 t.2 := by omega
      simp only [checkTimeoutAux]
      rw [if_pos h, checkTimeoutAux_events elf timeout rest]
      simp [List.filter_cons, h, h']
    · have h' : ¬ timeout ≤ elf t.1 t.2 := by omega
      simp only [checkTimeoutAux]
      rw [if_neg h, checkTimeoutAux_events elf timeout rest]
      simp [List.filter_cons, h, h']

theorem checkTimeoutAux_done (elf : Nat → Nat → Int) (timeout : Int) :
    ∀ (l : List (Nat × Nat)) (acc : Option Int) (s : MState),
      (checkTimeoutAux elf timeout l acc s).2.done = s.done
  | [], acc, s => rfl
  | t :: rest, acc, s => by
    by_cases h : timeout - elf t.1 t.2 ≤ 0
    · simp only [checkTimeoutAux]
      rw [if_pos h, checkTimeoutAux_done elf timeout rest]
    · simp only [checkTimeoutAux]
      rw [if_neg h, checkTimeoutAux_done elf timeout rest]

theorem checkTimeoutAux_tasks (elf : Nat → Nat → Int) (timeout : Int) :
    ∀ (l : List (Nat × Nat)) (acc : Option Int) (s : MState),
      (checkTimeoutAux elf timeout l acc s).2.tasks = s.tasks
  | [], acc, s => rfl
  | t :: rest, acc, s => by
    by_cases h : timeout - elf t.1 t.2 ≤ 0
    · simp only [checkTimeoutAux]
      rw [if_pos h, checkTimeoutAux_tasks elf timeout rest]
    · simp only [checkTimeoutAux]
      rw [if_neg h, checkTimeoutAux_tasks elf timeout rest]

theorem checkTimeoutAux_running (elf : Nat → Nat → Int) (timeout : Int) :
    ∀ (l : List (Nat × Nat)) (acc : Option Int) (s : MState),
      (checkTimeoutAux elf timeout l acc s).2.running = s.running
  | [], acc, s => rfl
  | t :: rest, acc, s => by
    by_cases h : timeout - elf t.1 t.2 ≤ 0
    · simp only [checkTimeoutAux]
      rw [if_pos h, checkTimeoutAux_running elf timeout rest]
    · simp only [checkTimeoutAux]
      rw [if_neg h, checkTimeoutAux_running elf timeout rest]

theorem checkTimeoutAux_limit (elf : Nat → Nat → Int) (timeout : Int) :
    ∀ (l : List (Nat × Nat)) (acc : Option Int) (s : MState),
      (checkTimeoutAux elf timeout l acc s).2.limit = s.limit
  | [], acc, s => rfl
  | t :: rest, acc, s => by
    by_cases h : timeout - elf t.1 t.2 ≤ 0
    · simp only [checkTimeoutAux]
      rw [if_pos h, checkTimeoutAux_limit elf timeout rest]
    · simp only [checkTimeoutAux]
      rw [if_neg h, checkTimeoutAux_limit elf timeout rest]

theorem checkTimeoutAux_timeoutF (elf : Nat → Nat → Int) (timeout : Int) :
    ∀ (l : List (Nat × Nat)) (acc : Option Int) (s : MState),
      (checkTimeoutAux elf timeout l acc s).2.timeout = s.timeout
  | [], acc, s => rfl
  | t :: rest, acc, s => by
    by_cases h : timeout - elf t.1 t.2 ≤ 0
    · simp only [checkTimeoutAux]
      rw [if_pos h, checkTimeoutAux_timeoutF elf timeout rest]
    · simp only [checkTimeoutAux]
      rw [if_neg h, checkTimeoutAux_timeoutF elf timeout rest]

theorem reports_timedouts (l : List (Nat × Nat)) :
    reports (l.map (fun t => Event.timedout t.1)) = [] := by
  induction l with
  | nil => rfl
  | cons t rest ih => simp [reports]

theorem checkTimeout_pos (elf : Nat → Nat → Int) (s : MState)
    (h : 0 < s.timeout) :
    checkTimeout elf s
      = ((checkTimeoutAux elf s.timeout s.running none s).2,
         some (match (checkTimeoutAux elf s.timeout s.running none s).1 with
               | none => 0
               | some m => max 0 m)) := by
  have hnp : ¬ s.timeout ≤ 0 := by omega
  rw [checkTimeout, if_neg hnp]

theorem checkTimeout_events_pos (elf : Nat → Nat → Int) (s : MState)
    (h : 0 < s.timeout) :
    (checkTimeout elf s).1.events
      = s.events ++ (s.running.filter
          (fun t => s.timeout - elf t.1 t.2 ≤ 0)).map
            (fun t => Event.timedout t.1) := by
  rw [checkTimeout_pos elf s h]
  exact checkTimeoutAux_events elf s.timeout s.running none s

theorem checkTimeout_done (elf : Nat → Nat → Int) (s : MState) :
    (checkTimeout elf s).1.done = s.done := by
  by_cases hnp : s.timeout ≤ 0
  · rw [checkTimeout_nonpos elf s hnp]
  · rw [checkTimeout_pos elf s (by omega)]
    exact checkTimeoutAux_done elf s.timeout s.running none s

theorem checkTimeout_tasks (elf : Nat → Nat → Int) (s : MState) :
    (checkTimeout elf s).1.tasks = s.tasks := by
  by_cases hnp : s.timeout ≤ 0
  · rw [checkTimeout_nonpos elf s hnp]
  · rw [checkTimeout_pos elf s (by omega)]
    exact checkTimeoutAux_tasks elf s.timeout s.running none s

theorem checkTimeout_running (elf : Nat → Nat → Int) (s : MState) :
    (checkTimeout elf s).1.running = s.running := by
  by_cases hnp : s.timeout ≤ 0
  · rw [checkTimeout_nonpos elf s hnp]
  · rw [checkTimeout_pos elf s (by omega)]
    exact checkTimeoutAux_running elf s.timeout s.running none s

theorem checkTimeout_limit (elf : Nat → Nat → Int) (s : MState) :
    (checkTimeout elf s).1.limit = s.limit := by
  by_cases hnp : s.timeout ≤ 0
  · rw [checkTimeout_nonpos elf s hnp]
  · rw [checkTimeout_pos elf s (by omega)]
    exact checkTimeoutAux_limit elf s.timeout s.running none s

theorem checkTimeout_timeoutF (elf : Nat → Nat → Int) (s : MState) :
    (checkTimeout elf s).1.timeout = s.timeout := by
  by_cases hnp : s.timeout ≤ 0
  · rw [checkTimeout_nonpos elf s hnp]
  · rw [checkTimeout_pos elf s (by omega)]
    exact checkTimeoutAux_timeoutF elf s.timeout s.running none s

theorem checkTimeout_reports (elf : Nat → Nat → Int) (s : MState) :
    reports (checkTimeout elf s).1.events = reports s.events := by
  by_cases hnp : s.timeout ≤ 0
  · rw [checkTimeout_nonpos elf s hnp]
  · rw [checkTimeout_events_pos elf s (by omega), reports_append,
      reports_timedouts, List.append_nil]

theorem checkTimeout_ordInv (elf : Nat → Nat → Int) (s : MState)
    (h : ordInv s) : ordInv (checkTimeout elf s).1 := by
  unfold ordInv at h ⊢
  rw [checkTimeout_reports, checkTimeout_done]
  exact h

theorem checkTimeout_goodPerm (ts0 : List Nat) (elf : Nat → Nat → Int)
    (s : MState) (h : goodPerm ts0 s) : goodPerm ts0 (checkTimeout elf s).1 := by
  unfold goodPerm at h ⊢
  rw [checkTimeout_done, checkTimeout_running, checkTimeout_tasks]
  exact h

theorem checkTimeout_noTimedout_nonpos (elf : Nat → Nat → Int) (s : MState)
    (hto : s.timeout ≤ 0) (h : ∀ e ∈ s.events, isTimedoutEv e = false) :
    ∀ e ∈ (checkTimeout elf s).1.events, isTimedoutEv e = false := by
  rw [checkTimeout_nonpos elf s hto]
  exact h

/-! ### Helper lemmas: `interrupted` -/

theorem zip_range'_append (a b : List Nat) (st : Nat) :
    (a ++ b).zip (List.range' st (a.length + b.length))
      = a.zip (List.range' st a.length)
        ++ b.zip (List.range' (st + a.length) b.length) := by
  induction a generalizing st with
  | nil => simp
  | cons x xs ih =>
    have h1 : (x :: xs).length + b.length = xs.length + b.length + 1 := by
      rw [List.length_cons]; omega
    rw [List.cons_append, h1, List.range'_succ, List.zip_cons_cons, ih]
    have h2 : (x :: xs).length = xs.length + 1 := rfl
    rw [h2, List.range'_succ, List.zip_cons_cons]
    rw [show st + (xs.length + 1) = st + 1 + xs.length by omega]
    simp

theorem interruptAux_done :
    ∀ (ids : List Nat) (s : MState),
      (interruptAux ids s).done = s.done ++ ids
  | [], s => by simp [interruptAux]
  | t :: rest, s => by
    rw [interruptAux, interruptAux_done rest, finished_done]
    simp

theorem interruptAux_tasks :
    ∀ (ids : List Nat) (s : MState),
      (interruptAux ids s).tasks = s.tasks
  | [], s => rfl
  | t :: rest, s => by
    rw [interruptAux, interruptAux_tasks rest, finished_tasks]

theorem interruptAux_running :
    ∀ (ids : List Nat) (s : MState),
      (interruptAux ids s).running = s.running
  | [], s => rfl
  | t :: rest, s => by
    rw [interruptAux, interruptAux_running rest, finished_running]

theorem interruptAux_reports :
    ∀ (ids : List Nat) (s : MState),
      reports (interruptAux ids s).events
        = reports s.events
          ++ ids.zip (List.range' (s.done.length + 1) ids.length)
  | [], s => by simp [interruptAux]
  | t :: rest, s => by
    rw [interruptAux, interruptAux_reports rest]
    have h1 : reports (finished t
        { s with events := s.events ++ [Event.interruptedEv t] }).events
        = reports s.events ++ [(t, s.done.length + 1)] := by
      rw [reports_finished]
      simp [reports, reports_append]
    have h2 : (finished t
        { s with events := s.events ++ [Event.interruptedEv t] }).done.length
        = s.done.length + 1 := by
      rw [finished_done]
      simp
    rw [h1, h2, List.length_cons, List.range'_succ, List.zip_cons_cons]
    simp

theorem interruptAux_events_mono :
    ∀ (ids : List Nat) (s : MState) (e : Event),
      e ∈ s.events → e ∈ (interruptAux ids s).events
  | [], s, e, he => he
  | t :: rest, s, e, he => by
    rw [interruptAux]
    apply interruptAux_events_mono rest
    rw [finished_events]
    simp only [List.mem_append]
    left; left
    exact he

theorem interruptAux_mem (ids : List Nat) (s : MState) :
    ∀ i ∈ ids, Event.interruptedEv i ∈ (interruptAux ids s).events := by
  induction ids generalizing s with
  | nil => intro i hi; cases hi
  | cons t rest ih =>
    intro i hi
    rw [interruptAux]
    rcases List.mem_cons.1 hi with rfl | hi
    · apply interruptAux_events_mono
      rw [finished_events]
      simp
    · exact ih _ i hi

theorem cancelAux_done :
    ∀ (ids : List Nat) (s : MState),
      (cancelAux ids s).done = s.done ++ ids
  | [], s => by simp [cancelAux]
  | t :: rest, s => by
    rw [cancelAux, cancelAux_done rest, finished_done]
    simp

theorem cancelAux_tasks :
    ∀ (ids : List Nat) (s : MState),
      (cancelAux ids s).tasks = s.tasks
  | [], s => rfl
  | t :: rest, s => by
    rw [cancelAux, cancelAux_tasks rest, finished_tasks]

theorem cancelAux_running :
    ∀ (ids : List Nat) (s : MState),
      (cancelAux ids s).running = s.running
  | [], s => rfl
  | t :: rest, s => by
    rw [cancelAux, cancelAux_running rest, finished_running]

theorem cancelAux_reports :
    ∀ (ids : List Nat) (s : MState),
      reports (cancelAux ids s).events
        = reports s.events
          ++ ids.zip (List.range' (s.done.length + 1) ids.length)
  | [], s => by simp [cancelAux]
  | t :: rest, s => by
    rw [cancelAux, cancelAux_reports rest]
    have h1 : reports (finished t
        { s with events := s.events ++ [Event.cancel t] }).events
        = reports s.events ++ [(t, s.done.length + 1)] := by
      rw [reports_finished]
      simp [reports, reports_append]
    have h2 : (finished t
        { s with events := s.events ++ [Event.cancel t] }).done.length
        = s.done.length + 1 := by
      rw [finished_done]
      simp
    rw [h1, h2, List.length_cons, List.range'_succ, List.zip_cons_cons]
    simp

theorem cancelAux_events_mono :
    ∀ (ids : List Nat) (s : MState) (e : Event),
      e ∈ s.events → e ∈ (cancelAux ids s).events
  | [], s, e, he => he
  | t :: rest, s, e, he => by
    rw [cancelAux]
    apply cancelAux_events_mono rest
    rw [finished_events]
    simp only [List.mem_append]
    left; left
    exact he

theorem cancelAux_mem (ids : List Nat) (s : MState) :
    ∀ i ∈ ids, Event.cancel i ∈ (cancelAux ids s).events := by
  induction ids generalizing s with
  | nil => intro i hi; cases hi
  | cons t rest ih =>
    intro i hi
    rw [cancelAux]
    rcases List.mem_cons.1 hi with rfl | hi
    · apply cancelAux_events_mono
      rw [finished_events]
      simp
    · exact ih _ i hi

theorem interrupted_done (s : MState) :
    (interrupted s).done = s.done ++ s.running.map Prod.fst ++ s.tasks := by
  unfold interrupted
  rw [cancelAux_done, interruptAux_done]

theorem interrupted_reports (s : MState) :
    reports (interrupted s).events
      = reports s.events
        ++ (s.running.map Prod.fst ++ s.tasks).zip
            (List.range' (s.done.length + 1)
              (s.running.length + s.tasks.length)) := by
  unfold interrupted
  rw [cancelAux_reports, interruptAux_reports, interruptAux_done]
  rw [show (s.done ++ s.running.map Prod.fst).length
      = s.done.length + (s.running.map Prod.fst).length by simp]
  rw [show s.running.length + s.tasks.length
      = (s.running.map Prod.fst).length + s.tasks.length by simp]
  rw [zip_range'_append]
  simp [List.append_assoc, Nat.add_comm, Nat.add_assoc, Nat.add_left_comm]

theorem interrupted_mem_interruptedEv (s : MState) :
    ∀ i ∈ s.running.map Prod.fst,
      Event.interruptedEv i ∈ (interrupted s).events := by
  intro i hi
  unfold interrupted
  exact cancelAux_events_mono s.tasks _ _
    (interruptAux_mem (s.running.map Prod.fst) s i hi)

theorem interrupted_mem_cancel (s : MState) :
    ∀ i ∈ s.tasks, Event.cancel i ∈ (interrupted s).events := by
  intro i hi
  unfold interrupted
  have := cancelAux_mem (interruptAux (s.running.map Prod.fst) s).tasks
    (interruptAux (s.running.map Prod.fst) s) i
  rw [interruptAux_tasks] at this
  exact this hi

theorem interrupted_goodPerm (ts0 : List Nat) (s : MState)
    (h : goodPerm ts0 s) : (interrupted s).done.Perm ts0 := by
  unfold goodPerm at h
  rw [interrupted_done, List.append_assoc]
  exact h

theorem interrupted_ordInv (s : MState) (h : ordInv s) :
    ordInv (interrupted s) := by
  unfold ordInv at h ⊢
  rw [interrupted_reports, interrupted_done, h, List.append_assoc]
  have hlen : (s.done ++ (s.running.map Prod.fst ++ s.tasks)).length
      = (s.running.map Prod.fst ++ s.tasks).length + s.done.length := by
    simp [Nat.add_comm]
  rw [hlen, ← List.range'_append_1 1 s.done.length
    (s.running.map Prod.fst ++ s.tasks).length]
  rw [List.zip_append (by simp)]
  rw [show 1 + s.done.length = s.done.length + 1 by omega]
  rw [show (s.running.map Prod.fst ++ s.tasks).length
      = s.running.length + s.tasks.length by simp]

/-! ### Helper lemmas: the run loop -/

theorem runLoop_succ_stop (beh : Nat → Nat → Bool) (elf : Nat → Nat → Int)
    (fuel : Nat) (s : MState) (w : Option Int)
    (hc : s.running = [] ∧ s.tasks = []) :
    runLoop beh elf (fuel + 1) s w = (s, w, true) := by
  simp only [runLoop]
  rw [if_pos hc]

theorem runLoop_succ_go (beh : Nat → Nat → Bool) (elf : Nat → Nat → Int)
    (fuel : Nat) (s : MState) (w : Option Int)
    (hc : ¬ (s.running = [] ∧ s.tasks = [])) :
    runLoop beh elf (fuel + 1) s w
      = runLoop beh elf fuel
          (checkTimeout elf (checkTasks beh (pollStep (clampWait w) s))).1
          (checkTimeout elf (checkTasks beh (pollStep (clampWait w) s))).2 := by
  simp only [runLoop]
  rw [if_neg hc]

theorem runLoop_inv (beh : Nat → Nat → Bool) (elf : Nat → Nat → Int)
    (ts0 : List Nat) :
    ∀ (fuel : Nat) (s : MState) (w : Option Int),
      goodPerm ts0 s → ordInv s →
        goodPerm ts0 (runLoop beh elf fuel s w).1
          ∧ ordInv (runLoop beh elf fuel s w).1
  | 0, s, w, hp, ho => ⟨hp, ho⟩
  | fuel + 1, s, w, hp, ho => by
    by_cases hc : s.running = [] ∧ s.tasks = []
    · rw [runLoop_succ_stop beh elf fuel s w hc]
      exact ⟨hp, ho⟩
    · rw [runLoop_succ_go beh elf fuel s w hc]
      exact runLoop_inv beh elf ts0 fuel _ _
        (checkTimeout_goodPerm ts0 elf _
          (checkTasks_goodPerm ts0 beh _ (pollStep_goodPerm ts0 _ s hp)))
        (checkTimeout_ordInv elf _
          (checkTasks_ordInv beh _ (pollStep_ordInv _ s ho)))

theorem runLoop_limit (beh : Nat → Nat → Bool) (elf : Nat → Nat → Int) :
    ∀ (fuel : Nat) (s : MState) (w : Option Int),
      (runLoop beh elf fuel s w).1.limit = s.limit
  | 0, s, w => rfl
  | fuel + 1, s, w => by
    by_cases hc : s.running = [] ∧ s.tasks = []
    · rw [runLoop_succ_stop beh elf fuel s w hc]
    · rw [runLoop_succ_go beh elf fuel s w hc, runLoop_limit beh elf fuel,
        checkTimeout_limit, checkTasks_limit, pollStep_limit]

theorem runLoop_timeout (beh : Nat → Nat → Bool) (elf : Nat → Nat → Int) :
    ∀ (fuel : Nat) (s : MState) (w : Option Int),
      (runLoop beh elf fuel s w).1.timeout = s.timeout
  | 0, s, w => rfl
  | fuel + 1, s, w => by
    by_cases hc : s.running = [] ∧ s.tasks = []
    · rw [runLoop_succ_stop beh elf fuel s w hc]
    · rw [runLoop_succ_go beh elf fuel s w hc, runLoop_timeout beh elf fuel,
        checkTimeout_timeoutF, checkTasks_timeout, pollStep_timeout]

theorem runLoop_len (beh : Nat → Nat → Bool) (elf : Nat → Nat → Int) :
    ∀ (fuel : Nat) (s : MState) (w : Option Int),
      s.running.length ≤ s.limit →
        (runLoop beh elf fuel s w).1.running.length ≤ s.limit
  | 0, s, w, h => h
  | fuel + 1, s, w, h => by
    by_cases hc : s.running = [] ∧ s.tasks = []
    · rw [runLoop_succ_stop beh elf fuel s w hc]
      exact h
    · rw [runLoop_succ_go beh elf fuel s w hc]
      have hlim :
          (checkTimeout elf (checkTasks beh
            (pollStep (clampWait w) s))).1.limit = s.limit := by
        rw [checkTimeout_limit, checkTasks_limit, pollStep_limit]
      have hlen :
          (checkTimeout elf (checkTasks beh
            (pollStep (clampWait w) s))).1.running.length ≤ s.limit := by
        rw [checkTimeout_running]
        calc (checkTasks beh (pollStep (clampWait w) s)).running.length
            ≤ (pollStep (clampWait w) s).running.length :=
              checkTasks_len beh _
          _ = s.running.length := pollStep_len _ s
          _ ≤ s.limit := h
      have := runLoop_len beh elf fuel
        (checkTimeout elf (checkTasks beh (pollStep (clampWait w) s))).1
        (checkTimeout elf (checkTasks beh (pollStep (clampWait w) s))).2
        (by rw [hlim]; exact hlen)
      rw [hlim] at this
      exact this

theorem runLoop_term (beh : Nat → Nat → Bool) (elf : Nat → Nat → Int) :
    ∀ (fuel : Nat) (s : MState) (w : Option Int),
      (runLoop beh elf fuel s w).2.2 = true →
        (runLoop beh elf fuel s w).1.running = []
          ∧ (runLoop beh elf fuel s w).1.tasks = []
  | 0, s, w, h => by cases h
  | fuel + 1, s, w, h => by
    by_cases hc : s.running = [] ∧ s.tasks = []
    · rw [runLoop_succ_stop beh elf fuel s w hc]
      exact hc
    · rw [runLoop_succ_go beh elf fuel s w hc]
      apply runLoop_term beh elf fuel
      rw [runLoop_succ_go beh elf fuel s w hc] at h
      exact h

theorem runLoop_noTimedout (beh : Nat → Nat → Bool) (elf : Nat → Nat → Int) :
    ∀ (fuel : Nat) (s : MState) (w : Option Int),
      s.timeout ≤ 0 → (∀ e ∈ s.events, isTimedoutEv e = false) →
        ∀ e ∈ (runLoop beh elf fuel s w).1.events, isTimedoutEv e = false
  | 0, s, w, hto, h => h
  | fuel + 1, s, w, hto, h => by
    by_cases hc : s.running = [] ∧ s.tasks = []
    · rw [runLoop_succ_stop beh elf fuel s w hc]
      exact h
    · rw [runLoop_succ_go beh elf fuel s w hc]
      have hto2 : (checkTasks beh (pollStep (clampWait w) s)).timeout ≤ 0 := by
        rw [checkTasks_timeout, pollStep_timeout]
        exact hto
      have h2 : ∀ e ∈ (checkTasks beh
          (pollStep (clampWait w) s)).events, isTimedoutEv e = false := by
        apply checkTasks_noTimedout
        rw [pollStep_events]
        exact h
      refine runLoop_noTimedout beh elf fuel _ _ ?_ ?_
      · rw [checkTimeout_timeoutF]
        exact hto2
      · exact checkTimeout_noTimedout_nonpos elf _ hto2 h2

theorem interrupted_noTimedout (s : MState)
    (h : ∀ e ∈ s.events, isTimedoutEv e = false) :
    ∀ e ∈ (interrupted s).events, isTimedoutEv e = false := by
  unfold interrupted
  have h1 : ∀ ids (st : MState),
      (∀ e ∈ st.events, isTimedoutEv e = false) →
        ∀ e ∈ (interruptAux ids st).events, isTimedoutEv e = false := by
    intro ids
    induction ids with
    | nil => intro st hst; exact hst
    | cons t rest ih =>
      intro st hst
      rw [interruptAux]
      apply ih
      intro e he
      rw [finished_events] at he
      rcases List.mem_append.1 he with h1 | h1
      · rcases List.mem_append.1 h1 with h2 | h2
        · exact hst e h2
        · rw [List.mem_singleton.1 h2]; rfl
      · rw [List.mem_singleton.1 h1]; rfl
  have h2 : ∀ ids (st : MState),
      (∀ e ∈ st.events, isTimedoutEv e = false) →
        ∀ e ∈ (cancelAux ids st).events, isTimedoutEv e = false := by
    intro ids
    induction ids with
    | nil => intro st hst; exact hst
    | cons t rest ih =>
      intro st hst
      rw [cancelAux]
      apply ih
      intro e he
      rw [finished_events] at he
      rcases List.mem_append.1 he with h1 | h1
      · rcases List.mem_append.1 h1 with h3 | h3
        · exact hst e h3
        · rw [List.mem_singleton.1 h3]; rfl
      · rw [List.mem_singleton.1 h1]; rfl
  exact h2 _ _ (h1 _ _ h)

/-! ### Stuck-loop lemmas -/

theorem pollStep_id (w : Int) (s : MState) (h : s.running = []) :
    pollStep w s = s := by
  cases s with
  | mk limit timeout tasks running done events =>
    simp only at h
    subst h
    rfl

theorem checkTasks_id (beh : Nat → Nat → Bool) (s : MState)
    (h : s.running = []) : checkTasks beh s = s := by
  cases s with
  | mk limit timeout tasks running done events =>
    simp only at h
    subst h
    rfl

theorem runLoop_stuck (beh : Nat → Nat → Bool) (elf : Nat → Nat → Int) :
    ∀ (fuel : Nat) (s : MState) (w : Option Int),
      s.running = [] → s.tasks ≠ [] → s.timeout ≤ 0 →
        (runLoop beh elf fuel s w).1 = s
          ∧ (runLoop beh elf fuel s w).2.2 = false
  | 0, s, w, _, _, _ => ⟨rfl, rfl⟩
  | fuel + 1, s, w, hr, ht, hto => by
    have hc : ¬ (s.running = [] ∧ s.tasks = []) := by
      intro hc
      exact ht hc.2
    rw [runLoop_succ_go beh elf fuel s w hc]
    rw [pollStep_id _ s hr, checkTasks_id beh s hr, checkTimeout_nonpos elf s hto]
    exact runLoop_stuck beh elf fuel s none hr ht hto

/-! ### The claims -/

/-- C1: for every list of N tasks added before `run()`, if `run()` returns
(the loop exits normally within the fuel), the done list has exactly N
entries, is a permutation of the added tasks (so each task is passed to
`finished` and reported exactly once), and the report ordinals form the
increasing sequence `1..N` in completion order. -/
theorem run_reports_each_task_once (beh : Nat → Nat → Bool)
    (elf : Nat → Nat → Int) (fuel : Nat) (s0 : MState)
    (hrun : s0.running = []) (hdone : s0.done = []) (hev : s0.events = [])
    (hterm : (runManager beh elf fuel s0).2.2 = true) :
    (runManager beh elf fuel s0).1.done.length = s0.tasks.length
      ∧ (runManager beh elf fuel s0).1.done.Perm s0.tasks
      ∧ reports (runManager beh elf fuel s0).1.events
          = (runManager beh elf fuel s0).1.done.zip
              (List.range' 1 (runManager beh elf fuel s0).1.done.length) := by
  have hp0 : goodPerm s0.tasks s0 := by
    unfold goodPerm
    rw [hrun, hdone]
    simp
  have ho0 : ordInv s0 := by
    unfold ordInv
    rw [hev, hdone]
    rfl
  have hinv := runLoop_inv beh elf s0.tasks fuel (startTasks s0) none
    (startTasks_goodPerm s0.tasks s0 hp0) (startTasks_ordInv s0 ho0)
  have hterm2 := runLoop_term beh elf fuel (startTasks s0) none hterm
  have hp := hinv.1
  unfold goodPerm at hp
  rw [hterm2.1, hterm2.2] at hp
  simp at hp
  exact ⟨hp.length_eq, hp, hinv.2⟩

/-- C1 witness: two immediately-finishing tasks, limit 2, fuel 2. -/
theorem run_reports_each_task_once_witness :
    ((runManager behNever elfZero 2 mgrTwo).2.2 = true)
      ∧ ((runManager behNever elfZero 2 mgrTwo).1.done.length
            = mgrTwo.tasks.length
        ∧ (runManager behNever elfZero 2 mgrTwo).1.done.Perm mgrTwo.tasks
        ∧ reports (runManager behNever elfZero 2 mgrTwo).1.events
            = (runManager behNever elfZero 2 mgrTwo).1.done.zip
                (List.range' 1
                  (runManager behNever elfZero 2 mgrTwo).1.done.length)) :=
  ⟨by decide,
   run_reports_each_task_once behNever elfZero 2 mgrTwo rfl rfl rfl
     (by decide)⟩

/-- C2: the claim says each loop iteration begins by admitting pending
tasks up to the limit, so with limit 2 and three immediately-finishing
tasks the third is admitted once a slot frees and all three are reported.
The code calls `start_tasks` only once, before the loop: with tasks
0, 1, 2 and limit 2, task 2 stays pending forever, the loop never exits
(the flag stays false for every fuel), and task 2 is never finished. -/
theorem run_loop_never_admits_pending (fuel : Nat) :
    (runManager behNever elfZero fuel mgrThree).1.tasks = [2]
      ∧ (runManager behNever elfZero fuel mgrThree).2.2 = false
      ∧ (2 : Nat) ∉ (runManager behNever elfZero fuel mgrThree).1.done := by
  cases fuel with
  | zero => exact ⟨rfl, rfl, by decide⟩
  | succ f =>
    have hstep : runManager behNever elfZero (f + 1) mgrThree
        = runLoop behNever elfZero f mgrThreeStuck none := by
      show runLoop behNever elfZero (f + 1) (startTasks mgrThree) none = _
      rw [runLoop_succ_go behNever elfZero f _ none (by decide)]
      rw [show checkTimeout elfZero (checkTasks behNever
          (pollStep (clampWait none) (startTasks mgrThree)))
          = (mgrThreeStuck, none) from by decide]
    have hstuck := runLoop_stuck behNever elfZero f mgrThreeStuck none
      rfl (by decide) (by decide)
    rw [hstep, hstuck.1]
    exact ⟨rfl, hstuck.2, by decide⟩

/-- C4: at every point during `run()` — after `start_tasks`, after any
number of loop iterations, and after the `poll`, `check_tasks` and
`check_timeout` steps inside the next iteration — the running set's size is
at most `limit` (a `Nat`, so any limit at least 0), provided the run
started with an empty running set. -/
theorem running_never_exceeds_limit (beh : Nat → Nat → Bool)
    (elf : Nat → Nat → Int) (k : Nat) (s0 : MState) (w : Int)
    (hrun : s0.running = []) :
    (startTasks s0).running.length ≤ s0.limit
      ∧ (runLoop beh elf k (startTasks s0) none).1.running.length ≤ s0.limit
      ∧ (pollStep w
          (runLoop beh elf k (startTasks s0) none).1).running.length
          ≤ s0.limit
      ∧ (checkTasks beh (pollStep w
          (runLoop beh elf k (startTasks s0) none).1)).running.length
          ≤ s0.limit
      ∧ ((checkTimeout elf (checkTasks beh (pollStep w
          (runLoop beh elf k (startTasks s0) none).1))).1).running.length
          ≤ s0.limit := by
  have h0 : (startTasks s0).running.length ≤ s0.limit :=
    startTasks_len s0 (by rw [hrun]; exact Nat.zero_le _)
  have h1 : (runLoop beh elf k (startTasks s0) none).1.running.length
      ≤ s0.limit := by
    have := runLoop_len beh elf k (startTasks s0) none
      (by rw [startTasks_limit]; exact h0)
    rw [startTasks_limit] at this
    exact this
  have h2 : (pollStep w
      (runLoop beh elf k (startTasks s0) none).1).running.length
      ≤ s0.limit := by
    rw [pollStep_len]
    exact h1
  have h3 : (checkTasks beh (pollStep w
      (runLoop beh elf k (startTasks s0) none).1)).running.length
      ≤ s0.limit :=
    Nat.le_trans (checkTasks_len beh _) h2
  have h4 : ((checkTimeout elf (checkTasks beh (pollStep w
      (runLoop beh elf k (startTasks s0) none).1))).1).running.length
      ≤ s0.limit := by
    rw [checkTimeout_running]
    exact h3
  exact ⟨h0, h1, h2, h3, h4⟩

/-- C4 witness at a concrete run. -/
theorem running_never_exceeds_limit_witness :
    mgrThree.running = []
      ∧ ((startTasks mgrThree).running.length ≤ mgrThree.limit
        ∧ (runLoop behNever elfZero 1
            (startTasks mgrThree) none).1.running.length ≤ mgrThree.limit
        ∧ (pollStep 0 (runLoop behNever elfZero 1
            (startTasks mgrThree) none).1).running.length ≤ mgrThree.limit
        ∧ (checkTasks behNever (pollStep 0 (runLoop behNever elfZero 1
            (startTasks mgrThree) none).1)).running.length ≤ mgrThree.limit
        ∧ ((checkTimeout elfZero (checkTasks behNever (pollStep 0
            (runLoop behNever elfZero 1
              (startTasks mgrThree) none).1))).1).running.length
            ≤ mgrThree.limit) :=
  ⟨rfl, running_never_exceeds_limit behNever elfZero 1 mgrThree 0 rfl⟩

/-- C6: with `timeout <= 0`, no `timedout` call ever happens during
`run()`, whatever `elapsed()` reports — neither on the normal path nor on
the interrupt path. -/
theorem no_timedout_when_timeout_nonpos (beh : Nat → Nat → Bool)
    (elf : Nat → Nat → Int) (fuel k : Nat) (s0 : MState)
    (hto : s0.timeout ≤ 0) (hev : s0.events = []) :
    (∀ e ∈ (runManager beh elf fuel s0).1.events, isTimedoutEv e = false)
      ∧ (∀ e ∈ (runInterrupted beh elf k s0).events,
          isTimedoutEv e = false) := by
  have hev0 : ∀ e ∈ s0.events, isTimedoutEv e = false := by
    rw [hev]
    intro e he
    cases he
  have hstart : ∀ e ∈ (startTasks s0).events, isTimedoutEv e = false :=
    startTasks_noTimedout s0 hev0
  have hstto : (startTasks s0).timeout ≤ 0 := by
    rw [startTasks_timeout]
    exact hto
  constructor
  · exact runLoop_noTimedout beh elf fuel (startTasks s0) none hstto hstart
  · have hbase : ∀ e ∈ (runLoop beh elf k (startTasks s0) none).1.events,
        isTimedoutEv e = false :=
      runLoop_noTimedout beh elf k (startTasks s0) none hstto hstart
    show ∀ e ∈ (if (runLoop beh elf k (startTasks s0) none).2.2
        then (runLoop beh elf k (startTasks s0) none).1
        else interrupted (runLoop beh elf k (startTasks s0) none).1).events,
      isTimedoutEv e = false
    by_cases hr : (runLoop beh elf k (startTasks s0) none).2.2 = true
    · rw [if_pos hr]
      exact hbase
    · rw [if_neg hr]
      exact interrupted_noTimedout _ hbase

/-- C6 witness at a concrete run with interrupt point 1. -/
theorem no_timedout_when_timeout_nonpos_witness :
    (mgrTwo.timeout ≤ 0 ∧ mgrTwo.events = [])
      ∧ ((∀ e ∈ (runManager behNever elfZero 2 mgrTwo).1.events,
          isTimedoutEv e = false)
        ∧ (∀ e ∈ (runInterrupted behNever elfZero 1 mgrTwo).events,
            isTimedoutEv e = false)) :=
  ⟨⟨by decide, rfl⟩,
   no_timedout_when_timeout_nonpos behNever elfZero 2 1 mgrTwo
     (by decide) rfl⟩

/-- C7: when a user abort arrives during `run()` after `k` complete loop
iterations (and the loop had not already exited), every task running at
that point receives `interrupted()`, every still-pending task receives
`cancel()`, each of them is finished exactly once — the done list becomes
the previous done list followed by the running tasks then the pending
tasks, and is a permutation of all added tasks — and the reports carry the
ordinals `1..N`.  The exception is caught, so `run` returns a final state
rather than propagating. -/
theorem interrupt_finishes_running_and_pending (beh : Nat → Nat → Bool)
    (elf : Nat → Nat → Int) (k : Nat) (s0 : MState)
    (hrun : s0.running = []) (hdone : s0.done = []) (hev : s0.events = [])
    (hint : (runLoop beh elf k (startTasks s0) none).2.2 = false) :
    ((runInterrupted beh elf k s0).done
        = (runLoop beh elf k (startTasks s0) none).1.done
          ++ (runLoop beh elf k (startTasks s0) none).1.running.map Prod.fst
          ++ (runLoop beh elf k (startTasks s0) none).1.tasks)
      ∧ (∀ i ∈ (runLoop beh elf k
          (startTasks s0) none).1.running.map Prod.fst,
          Event.interruptedEv i ∈ (runInterrupted beh elf k s0).events)
      ∧ (∀ i ∈ (runLoop beh elf k (startTasks s0) none).1.tasks,
          Event.cancel i ∈ (runInterrupted beh elf k s0).events)
      ∧ (runInterrupted beh elf k s0).done.Perm s0.tasks
      ∧ reports (runInterrupted beh elf k s0).events
          = (runInterrupted beh elf k s0).done.zip
              (List.range' 1 (runInterrupted beh elf k s0).done.length) := by
  have hru : runInterrupted beh elf k s0
      = interrupted (runLoop beh elf k (startTasks s0) none).1 := by
    show (if (runLoop beh elf k (startTasks s0) none).2.2
        then (runLoop beh elf k (startTasks s0) none).1
        else interrupted (runLoop beh elf k (startTasks s0) none).1) = _
    rw [hint]
    simp
  have hp0 : goodPerm s0.tasks s0 := by
    unfold goodPerm
    rw [hrun, hdone]
    simp
  have ho0 : ordInv s0 := by
    unfold ordInv
    rw [hev, hdone]
    rfl
  have hinv := runLoop_inv beh elf s0.tasks k (startTasks s0) none
    (startTasks_goodPerm s0.tasks s0 hp0) (startTasks_ordInv s0 ho0)
  refine ⟨?_, ?_, ?_, ?_, ?_⟩
  · rw [hru]
    exact interrupted_done _
  · rw [hru]
    exact interrupted_mem_interruptedEv _
  · rw [hru]
    exact interrupted_mem_cancel _
  · rw [hru]
    exact interrupted_goodPerm s0.tasks _ hinv.1
  · rw [hru]
    have := interrupted_ordInv _ hinv.2
    exact this

/-- C7 witness: limit 1, task 10 running forever, task 20 pending, abort
after one iteration. -/
theorem interrupt_finishes_running_and_pending_witness :
    (mgrAbort.running = [] ∧ mgrAbort.done = [] ∧ mgrAbort.events = []
        ∧ (runLoop behAlways elfZero 1 (startTasks mgrAbort) none).2.2
            = false)
      ∧ (((runInterrupted behAlways elfZero 1 mgrAbort).done
          = (runLoop behAlways elfZero 1 (startTasks mgrAbort) none).1.done
            ++ (runLoop behAlways elfZero 1
                (startTasks mgrAbort) none).1.running.map Prod.fst
            ++ (runLoop behAlways elfZero 1 (startTasks mgrAbort) none).1.tasks)
        ∧ (∀ i ∈ (runLoop behAlways elfZero 1
            (startTasks mgrAbort) none).1.running.map Prod.fst,
            Event.interruptedEv i
              ∈ (runInterrupted behAlways elfZero 1 mgrAbort).events)
        ∧ (∀ i ∈ (runLoop behAlways elfZero 1
            (startTasks mgrAbort) none).1.tasks,
            Event.cancel i
              ∈ (runInterrupted behAlways elfZero 1 mgrAbort).events)
        ∧ (runInterrupted behAlways elfZero 1 mgrAbort).done.Perm
            mgrAbort.tasks
        ∧ reports (runInterrupted behAlways elfZero 1 mgrAbort).events
            = (runInterrupted behAlways elfZero 1 mgrAbort).done.zip
                (List.range' 1 (runInterrupted behAlways elfZero 1
                  mgrAbort).done.length)) :=
  ⟨⟨rfl, rfl, rfl, by decide⟩,
   interrupt_finishes_running_and_pending behAlways elfZero 1 mgrAbort
     rfl rfl rfl (by decide)⟩

/-- C10: `Manager.interrupted` finishes the running group before the
pending group: the done list extends by the running tasks then the pending
tasks, report ordinals `done+1 .. done+r` go to the running tasks and
`done+r+1 .. done+r+p` to the pending ones, and every running-group
ordinal is strictly smaller than every pending-group ordinal. -/
theorem interrupted_running_group_before_pending_group (s : MState) :
    (interrupted s).done = s.done ++ s.running.map Prod.fst ++ s.tasks
      ∧ reports (interrupted s).events
          = reports s.events
            ++ (s.running.map Prod.fst).zip
                (List.range' (s.done.length + 1) s.running.length)
            ++ s.tasks.zip
                (List.range' (s.done.length + s.running.length + 1)
                  s.tasks.length)
      ∧ (∀ o1 ∈ List.range' (s.done.length + 1) s.running.length,
          ∀ o2 ∈ List.range' (s.done.length + s.running.length + 1)
              s.tasks.length, o1 < o2) := by
  refine ⟨interrupted_done s, ?_, ?_⟩
  · rw [interrupted_reports s]
    rw [show s.running.length + s.tasks.length
        = (s.running.map Prod.fst).length + s.tasks.length by simp]
    rw [zip_range'_append]
    rw [show s.done.length + 1 + (s.running.map Prod.fst).length
        = s.done.length + s.running.length + 1 by simp; omega]
    rw [show (s.running.map Prod.fst).length = s.running.length by simp]
    rw [List.append_assoc]
  · intro o1 h1 o2 h2
    rw [List.mem_range'_1] at h1 h2
    omega

/-- C10 witness at a mid-run state with one finished, one running and one
pending task: the running task 10 gets ordinal 2, the pending task 20 gets
ordinal 3. -/
theorem interrupted_running_group_before_pending_group_witness :
    (interrupted mgrMid).done
        = mgrMid.done ++ mgrMid.running.map Prod.fst ++ mgrMid.tasks
      ∧ reports (interrupted mgrMid).events
          = reports mgrMid.events
            ++ (mgrMid.running.map Prod.fst).zip
                (List.range' (mgrMid.done.length + 1) mgrMid.running.length)
            ++ mgrMid.tasks.zip
                (List.range' (mgrMid.done.length + mgrMid.running.length + 1)
                  mgrMid.tasks.length)
      ∧ (∀ o1 ∈ List.range' (mgrMid.done.length + 1) mgrMid.running.length,
          ∀ o2 ∈ List.range' (mgrMid.done.length + mgrMid.running.length + 1)
              mgrMid.tasks.length, o1 < o2) :=
  interrupted_running_group_before_pending_group mgrMid

/-- C3 counterexample: `register` with neither read nor write does fail
deterministically, but it does NOT leave the registry unchanged: the
descriptor-to-handler map gains the entry before the error is raised (only
the poller's interest set is untouched). -/
theorem register_no_events_mutates_map :
    (register 3 7 false false { map := [], poller := [] }).2.isSome = true
      ∧ (register 3 7 false false { map := [], poller := [] }).1.map
          = [(3, 7)]
      ∧ (register 3 7 false false { map := [], poller := [] }).1.map
          ≠ ({ map := [], poller := [] } : IOMapState).map
      ∧ (register 3 7 false false { map := [], poller := [] }).1.poller
          = ({ map := [], poller := [] } : IOMapState).poller := by
  decide

/-- C3 amended: for every descriptor, handler and prior registry state,
`register` with read and write both false raises the invalid-argument
`ValueError` deterministically and leaves the poller's interest set
unchanged, but the handler map has already been updated with
`map[fd] = handler` when the error is raised. -/
theorem register_no_events_spec (fd handler : Nat) (s : IOMapState) :
    register fd handler false false s
      = ({ s with map := dictInsert s.map fd handler },
         some "Register must be called with read or write.") := rfl

/-- C8 counterexample: two descriptors are both registered and both ready;
the handler invoked for descriptor 1 unregisters descriptor 2, and the
dispatch of the pre-fetched ready list then fails with a `KeyError` when
it reaches descriptor 2. -/
theorem poll_dispatch_unregister_other_fails :
    (pollDispatch
        (fun _ _ _ st => { st with map := st.map.filter (fun p => p.1 != 2) })
        [(1, 1), (2, 1)]
        { map := [(1, 0), (2, 0)], poller := [(1, 1), (2, 1)] }).2
      = some "KeyError" := by
  decide

theorem lookup_filter_ne :
    ∀ (m : List (Nat × Nat)) (fd fd2 : Nat), fd2 ≠ fd →
      (m.lookup fd2).isSome = true →
        ((m.filter (fun p => p.1 != fd)).lookup fd2).isSome = true
  | [], fd, fd2, hne, h => by simp [List.lookup] at h
  | (k, v) :: rest, fd, fd2, hne, h => by
    by_cases hk : fd2 = k
    · subst hk
      have hkeep : (fd2 != fd) = true := by
        simp only [bne_iff_ne, ne_eq]
        exact hne
      simp [List.filter_cons, hkeep, List.lookup]
    · have hbeq : (fd2 == k) = false := by
        simp [hk]
      have h2 : (rest.lookup fd2).isSome = true := by
        simp only [List.lookup, hbeq] at h
        exact h
      have ih := lookup_filter_ne rest fd fd2 hne h2
      by_cases hkf : (k != fd) = true
      · rw [List.filter_cons]
        rw [hkf]
        simp only [List.lookup, hbeq]
        exact ih
      · rw [List.filter_cons]
        simp only [Bool.not_eq_true] at hkf
        rw [hkf]
        exact ih

/-- C8 amended: dispatching the pre-fetched ready list never fails
provided every ready descriptor is registered, the ready list has no
duplicate descriptors (as a poll result does), and every handler preserves
the registration of descriptors other than the one it was invoked for —
e.g. handlers that only unregister themselves.  A handler that
unregisters another still-pending ready descriptor breaks this, as the
counterexample shows. -/
theorem poll_dispatch_safe_when_others_preserved
    (env : Nat → Nat → Nat → IOMapState → IOMapState)
    (ready : List (Nat × Nat)) (s : IOMapState)
    (hpres : ∀ h fd ev st fd2, fd2 ≠ fd →
      (st.map.lookup fd2).isSome = true →
        (((env h fd ev st).map.lookup fd2)).isSome = true)
    (hreg : ∀ p ∈ ready, (s.map.lookup p.1).isSome = true)
    (hnd : (ready.map Prod.fst).Nodup) :
    (pollDispatch env ready s).2 = none := by
  induction ready generalizing s with
  | nil => rfl
  | cons p rest ih =>
    obtain ⟨fd, ev⟩ := p
    have hfd : (s.map.lookup fd).isSome = true :=
      hreg (fd, ev) (List.mem_cons_self _ _)
    obtain ⟨h, hh⟩ := Option.isSome_iff_exists.1 hfd
    simp only [pollDispatch, hh]
    simp only [List.map_cons] at hnd
    have hnd2 := List.nodup_cons.1 hnd
    apply ih
    · intro q hq
      have hq1 : q.1 ∈ rest.map Prod.fst := List.mem_map_of_mem Prod.fst hq
      have hqne : q.1 ≠ fd := fun heq => hnd2.1 (heq ▸ hq1)
      exact hpres h fd ev s q.1 hqne (hreg q (List.mem_cons_of_mem _ hq))
    · exact hnd2.2

/-- C8 witness: both ready descriptors registered, each handler
unregisters only itself; dispatch succeeds. -/
theorem poll_dispatch_safe_when_others_preserved_witness :
    ((∀ h fd ev (st : IOMapState) fd2, fd2 ≠ fd →
        (st.map.lookup fd2).isSome = true →
          ((((fun _ fd3 _ st2 => { st2 with
              map := st2.map.filter (fun p => p.1 != fd3) })
            : Nat → Nat → Nat → IOMapState → IOMapState)
              h fd ev st).map.lookup fd2).isSome = true)
      ∧ (∀ p ∈ [((1 : Nat), (1 : Nat)), (2, 2)],
          ((({ map := [(1, 10), (2, 20)], poller := [] }
            : IOMapState)).map.lookup p.1).isSome = true)
      ∧ (([((1 : Nat), (1 : Nat)), (2, 2)].map Prod.fst).Nodup))
      ∧ (pollDispatch
          (fun _ fd3 _ st2 => { st2 with
            map := st2.map.filter (fun p => p.1 != fd3) })
          [(1, 1), (2, 2)]
          { map := [(1, 10), (2, 20)], poller := [] }).2 = none :=
  ⟨⟨fun h fd ev st fd2 hne hs => lookup_filter_ne st.map fd fd2 hne hs,
    by decide, by decide⟩,
   poll_dispatch_safe_when_others_preserved
     (fun _ fd3 _ st2 => { st2 with
       map := st2.map.filter (fun p => p.1 != fd3) })
     [(1, 1), (2, 2)] { map := [(1, 10), (2, 20)], poller := [] }
     (fun h fd ev st fd2 hne hs => lookup_filter_ne st.map fd fd2 hne hs)
     (by decide) (by decide)⟩

/-- C9 counterexample: a write to destination 0 enqueued after
destination 0's close marker raises on the Writer thread; the loop has no
handler, so the thread dies and destination 1's later entry is never
processed — a per-destination failure does halt processing of other
destinations' queued entries. -/
theorem writer_closed_write_halts_rest :
    (writerRun [WEntry.write 0 "a", WEntry.close 0, WEntry.write 0 "b",
        WEntry.write 1 "c"] { closed := [], out := [] }).2
      = WOutcome.errored "ValueError: I/O operation on closed file"
      ∧ (writerRun [WEntry.write 0 "a", WEntry.close 0, WEntry.write 0 "b",
          WEntry.write 1 "c"] { closed := [], out := [] }).1.out
          = [(0, "a")]
      ∧ ((1 : Nat), "c") ∉ (writerRun [WEntry.write 0 "a", WEntry.close 0,
          WEntry.write 0 "b",
          WEntry.write 1 "c"] { closed := [], out := [] }).1.out := by
  exact ⟨rfl, rfl, by decide⟩

/-- C9 amended: a failure while processing one destination's entry is
confined to the Writer thread (the run function returns the error as the
thread's outcome; nothing is raised in the main thread), but it terminates
the Writer's loop: the failing entry and every entry queued after it — for
any destination — are left unprocessed. -/
theorem writer_error_ends_loop (f : Nat) (d : String) (rest : List WEntry)
    (st : WState) (h : f ∈ st.closed) :
    writerRun (WEntry.write f d :: rest) st
      = (st, WOutcome.errored "ValueError: I/O operation on closed file") := by
  simp only [writerRun]
  rw [if_pos h]

/-- C9 witness: destination 0 already closed; a pending entry for
destination 1 is dropped with everything else. -/
theorem writer_error_ends_loop_witness :
    (0 : Nat) ∈ ({ closed := [0], out := [] } : WState).closed
      ∧ writerRun (WEntry.write 0 "b" :: [WEntry.write 1 "c"])
          { closed := [0], out := [] }
        = ({ closed := [0], out := [] },
           WOutcome.errored "ValueError: I/O operation on closed file") :=
  ⟨by decide,
   writer_error_ends_loop 0 "b" [WEntry.write 1 "c"]
     { closed := [0], out := [] } (by decide)⟩

/-- Characterization of the `min_timeleft` fold in `check_timeout`: a
`none` result means the accumulator was `none` and no positive time left
was seen; a `some m` result is either a positive time left of some running
task or the incoming accumulator, is a lower bound on all positive time
lefts, and is at most the incoming accumulator. -/
theorem checkTimeoutAux_min (elf : Nat → Nat → Int) (T : Int) :
    ∀ (l : List (Nat × Nat)) (acc : Option Int) (s : MState),
      ((checkTimeoutAux elf T l acc s).1 = none → acc = none
          ∧ (l.map (fun t => T - elf t.1 t.2)).filter
              (fun x => (0 : Int) < x) = [])
      ∧ (∀ m, (checkTimeoutAux elf T l acc s).1 = some m →
          (m ∈ (l.map (fun t => T - elf t.1 t.2)).filter
              (fun x => (0 : Int) < x) ∨ acc = some m)
          ∧ (∀ x ∈ (l.map (fun t => T - elf t.1 t.2)).filter
              (fun x => (0 : Int) < x), m ≤ x)
          ∧ (∀ a, acc = some a → m ≤ a))
  | [], acc, s => by
    constructor
    · intro hnone
      exact ⟨hnone, rfl⟩
    · intro m hm
      have hm' : acc = some m := hm
      refine ⟨Or.inr hm', ?_, ?_⟩
      · intro x hx
        simp at hx
      · intro a ha
        rw [ha] at hm'
        injection hm' with h2
        rw [h2]
  | t :: rest, acc, s => by
    by_cases hle : T - elf t.1 t.2 ≤ 0
    · have hnotpos : ¬ (0 : Int) < T - elf t.1 t.2 := by omega
      have hfilter : ((t :: rest).map (fun t2 => T - elf t2.1 t2.2)).filter
            (fun x => (0 : Int) < x)
          = (rest.map (fun t2 => T - elf t2.1 t2.2)).filter
              (fun x => (0 : Int) < x) := by
        simp [List.filter_cons, hnotpos]
      simp only [checkTimeoutAux]
      rw [if_pos hle, hfilter]
      exact checkTimeoutAux_min elf T rest acc _
    · have hpos : (0 : Int) < T - elf t.1 t.2 := by omega
      have hfilter : ((t :: rest).map (fun t2 => T - elf t2.1 t2.2)).filter
            (fun x => (0 : Int) < x)
          = (T - elf t.1 t.2)
            :: (rest.map (fun t2 => T - elf t2.1 t2.2)).filter
                (fun x => (0 : Int) < x) := by
        simp [List.filter_cons, hpos]
      simp only [checkTimeoutAux]
      rw [if_neg hle, hfilter]
      cases acc with
      | none =>
        rw [show minUpdate (T - elf t.1 t.2) none
            = some (T - elf t.1 t.2) from rfl]
        have ih := checkTimeoutAux_min elf T rest (some (T - elf t.1 t.2)) s
        constructor
        · intro hnone
          obtain ⟨hbad, _⟩ := ih.1 hnone
          cases hbad
        · intro m hm
          obtain ⟨hmem, hbound, hacc⟩ := ih.2 m hm
          have hmv : m ≤ T - elf t.1 t.2 := hacc _ rfl
          refine ⟨?_, ?_, ?_⟩
          · rcases hmem with h1 | h1
            · exact Or.inl (List.mem_cons_of_mem _ h1)
            · cases h1
              exact Or.inl (List.mem_cons_self _ _)
          · intro x hx
            rcases List.mem_cons.1 hx with rfl | hx2
            · exact hmv
            · exact hbound x hx2
          · intro a ha
            cases ha
      | some m0 =>
        rw [show minUpdate (T - elf t.1 t.2) (some m0)
            = if T - elf t.1 t.2 < m0 then some (T - elf t.1 t.2)
              else some m0 from rfl]
        by_cases hcmp : T - elf t.1 t.2 < m0
        · rw [if_pos hcmp]
          have ih := checkTimeoutAux_min elf T rest (some (T - elf t.1 t.2)) s
          constructor
          · intro hnone
            obtain ⟨hbad, _⟩ := ih.1 hnone
            cases hbad
          · intro m hm
            obtain ⟨hmem, hbound, hacc⟩ := ih.2 m hm
            have hmv : m ≤ T - elf t.1 t.2 := hacc _ rfl
            refine ⟨?_, ?_, ?_⟩
            · rcases hmem with h1 | h1
              · exact Or.inl (List.mem_cons_of_mem _ h1)
              · cases h1
                exact Or.inl (List.mem_cons_self _ _)
            · intro x hx
              rcases List.mem_cons.1 hx with rfl | hx2
              · exact hmv
              · exact hbound x hx2
            · intro a ha
              cases ha
              exact le_trans hmv (le_of_lt hcmp)
        · rw [if_neg hcmp]
          have ih := checkTimeoutAux_min elf T rest (some m0) s
          constructor
          · intro hnone
            obtain ⟨hbad, _⟩ := ih.1 hnone
            cases hbad
          · intro m hm
            obtain ⟨hmem, hbound, hacc⟩ := ih.2 m hm
            have hmv : m ≤ m0 := hacc _ rfl
            have hm0tl : m0 ≤ T - elf t.1 t.2 := by omega
            refine ⟨?_, ?_, ?_⟩
            · rcases hmem with h1 | h1
              · exact Or.inl (List.mem_cons_of_mem _ h1)
              · exact Or.inr h1
            · intro x hx
              rcases List.mem_cons.1 hx with rfl | hx2
              · exact le_trans hmv hm0tl
              · exact hbound x hx2
            · intro a ha
              cases ha
              exact hmv

/-- C5 counterexample: with a positive ceiling and no running tasks,
`check_timeout` does not return "no constraint" (`None`): in Python 2
`max(0, None)` is `0`, so it returns `0`. -/
theorem check_timeout_no_running_returns_zero :
    mgrIdle.running = []
      ∧ (0 : Int) < mgrIdle.timeout
      ∧ (checkTimeout elfZero mgrIdle).2 = some 0
      ∧ (checkTimeout elfZero mgrIdle).2 ≠ none := by
  decide

/-- C5 amended: `check_timeout` returns "no constraint" (`None`) exactly
when the ceiling is at most 0; with a positive ceiling it calls
`timedout()` on exactly those running tasks whose remaining time is at
most 0 (leaving done, running and pending unchanged) and always returns a
number `m >= 0`: the minimum positive remaining value across running
tasks when one exists, and `0` — not "no constraint" — when there are no
running tasks or no positive remaining values (Python 2's
`max(0, None)`). -/
theorem check_timeout_spec (elf : Nat → Nat → Int) (s : MState) :
    (s.timeout ≤ 0 → checkTimeout elf s = (s, none))
      ∧ (0 < s.timeout →
          ((checkTimeout elf s).1.events
              = s.events ++ (s.running.filter
                  (fun t => s.timeout - elf t.1 t.2 ≤ 0)).map
                    (fun t => Event.timedout t.1)
            ∧ (checkTimeout elf s).1.done = s.done
            ∧ (checkTimeout elf s).1.running = s.running
            ∧ (checkTimeout elf s).1.tasks = s.tasks
            ∧ ∃ m : Int, (checkTimeout elf s).2 = some m ∧ 0 ≤ m
                ∧ (((s.running.map (fun t => s.timeout - elf t.1 t.2)).filter
                      (fun x => (0 : Int) < x) = [] ∧ m = 0)
                  ∨ (m ∈ (s.running.map
                        (fun t => s.timeout - elf t.1 t.2)).filter
                          (fun x => (0 : Int) < x)
                    ∧ ∀ x ∈ (s.running.map
                        (fun t => s.timeout - elf t.1 t.2)).filter
                          (fun x => (0 : Int) < x), m ≤ x)))) := by
  constructor
  · intro h
    exact checkTimeout_nonpos elf s h
  · intro h
    refine ⟨checkTimeout_events_pos elf s h, checkTimeout_done elf s,
      checkTimeout_running elf s, checkTimeout_tasks elf s, ?_⟩
    rw [checkTimeout_pos elf s h]
    cases hr : (checkTimeoutAux elf s.timeout s.running none s).1 with
    | none =>
      have hc := (checkTimeoutAux_min elf s.timeout s.running none s).1 hr
      refine ⟨0, ?_, le_refl 0, Or.inl ⟨hc.2, rfl⟩⟩
      rfl
    | some m =>
      have hc := (checkTimeoutAux_min elf s.timeout s.running none s).2 m hr
      have hmem : m ∈ (s.running.map
          (fun t => s.timeout - elf t.1 t.2)).filter
            (fun x => (0 : Int) < x) := by
        rcases hc.1 with h1 | h1
        · exact h1
        · cases h1
      have hpos : (0 : Int) < m := by
        have := (List.mem_filter.1 hmem).2
        simpa using this
      refine ⟨m, ?_, le_of_lt hpos, Or.inr ⟨hmem, hc.2.1⟩⟩
      show some (max (0 : Int) m) = some m
      rw [max_eq_right (le_of_lt hpos)]

/-- C5 witness: ceiling 5, tasks with elapsed 2 and 7: the second task is
timed out, the minimum positive remaining value is 3. -/
theorem check_timeout_spec_witness :
    (({ limit := 2, timeout := 5, tasks := [], running := [(0, 1), (1, 1)], done := [], events := [] } : MState).timeout ≤ 0 →
        checkTimeout (fun i _ => if i = 0 then 2 else 7)
          { limit := 2, timeout := 5, tasks := [], running := [(0, 1), (1, 1)], done := [], events := [] }
          = ({ limit := 2, timeout := 5, tasks := [], running := [(0, 1), (1, 1)], done := [], events := [] }, none))
      ∧ ((0 : Int) < ({ limit := 2, timeout := 5, tasks := [], running := [(0, 1), (1, 1)], done := [], events := [] } : MState).timeout →
          ((checkTimeout (fun i _ => if i = 0 then 2 else 7)
              { limit := 2, timeout := 5, tasks := [], running := [(0, 1), (1, 1)], done := [], events := [] }).1.events
              = ({ limit := 2, timeout := 5, tasks := [], running := [(0, 1), (1, 1)], done := [], events := [] } : MState).events
                ++ (({ limit := 2, timeout := 5, tasks := [], running := [(0, 1), (1, 1)], done := [], events := [] } : MState).running.filter
                    (fun t => ({ limit := 2, timeout := 5, tasks := [], running := [(0, 1), (1, 1)], done := [], events := [] } : MState).timeout
                      - (fun i _ => if i = 0 then 2 else 7 : Nat → Nat → Int) t.1 t.2 ≤ 0)).map
                      (fun t => Event.timedout t.1)
            ∧ (checkTimeout (fun i _ => if i = 0 then 2 else 7)
                { limit := 2, timeout := 5, tasks := [], running := [(0, 1), (1, 1)], done := [], events := [] }).1.done
                = ({ limit := 2, timeout := 5, tasks := [], running := [(0, 1), (1, 1)], done := [], events := [] } : MState).done
            ∧ (checkTimeout (fun i _ => if i = 0 then 2 else 7)
                { limit := 2, timeout := 5, tasks := [], running := [(0, 1), (1, 1)], done := [], events := [] }).1.running
                = ({ limit := 2, timeout := 5, tasks := [], running := [(0, 1), (1, 1)], done := [], events := [] } : MState).running
            ∧ (checkTimeout (fun i _ => if i = 0 then 2 else 7)
                { limit := 2, timeout := 5, tasks := [], running := [(0, 1), (1, 1)], done := [], events := [] }).1.tasks
                = ({ limit := 2, timeout := 5, tasks := [], running := [(0, 1), (1, 1)], done := [], events := [] } : MState).tasks
            ∧ ∃ m : Int, (checkTimeout (fun i _ => if i = 0 then 2 else 7)
                  { limit := 2, timeout := 5, tasks := [], running := [(0, 1), (1, 1)], done := [], events := [] }).2 = some m
                ∧ 0 ≤ m
                ∧ ((((({ limit := 2, timeout := 5, tasks := [], running := [(0, 1), (1, 1)], done := [], events := [] } : MState)).running.map
                      (fun t => ({ limit := 2, timeout := 5, tasks := [], running := [(0, 1), (1, 1)], done := [], events := [] } : MState).timeout
                        - (fun i _ => if i = 0 then 2 else 7 : Nat → Nat → Int) t.1 t.2)).filter
                        (fun x => (0 : Int) < x) = [] ∧ m = 0)
                  ∨ (m ∈ ((({ limit := 2, timeout := 5, tasks := [], running := [(0, 1), (1, 1)], done := [], events := [] } : MState)).running.map
                        (fun t => ({ limit := 2, timeout := 5, tasks := [], running := [(0, 1), (1, 1)], done := [], events := [] } : MState).timeout
                          - (fun i _ => if i = 0 then 2 else 7 : Nat → Nat → Int) t.1 t.2)).filter
                          (fun x => (0 : Int) < x)
                    ∧ ∀ x ∈ ((({ limit := 2, timeout := 5, tasks := [], running := [(0, 1), (1, 1)], done := [], events := [] } : MState)).running.map
                        (fun t => ({ limit := 2, timeout := 5, tasks := [], running := [(0, 1), (1, 1)], done := [], events := [] } : MState).timeout
                          - (fun i _ => if i = 0 then 2 else 7 : Nat → Nat → Int) t.1 t.2)).filter
                          (fun x => (0 : Int) < x), m ≤ x)))) :=
  check_timeout_spec (fun i _ => if i = 0 then 2 else 7)
    { limit := 2, timeout := 5, tasks := [], running := [(0, 1), (1, 1)], done := [], events := [] }
